import Mathlib

/-!
Verification of the rust_quote_stream repository's specification against its
source code.  Rust strings are modelled as `List Char`; machine integers as
`Nat`/`Int` with explicit range conditions; `f64` prices as `ℚ` (the price
arithmetic in the claims stays on the two-decimal grid, where the rational
model agrees with the shortest-round-trip behaviour of the binary64 printing
used by serde_json).  Fallible Rust functions return `Option`/`Except`.
-/

/-! ## Rust string primitives (std `str` methods restricted to ASCII input) -/

/-- Whitespace as recognised by `str::trim` (ASCII subset; the Unicode
whitespace code points beyond ASCII are not modelled). -/
def isRustWhitespace (c : Char) : Bool :=
  c = ' ' || c = '\t' || c = '\n' || c = '\r' || c = '\x0b' || c = '\x0c'

/-- Model of `str::trim`: drop whitespace from both ends. -/
def rustTrim (l : List Char) : List Char :=
  ((l.dropWhile isRustWhitespace).reverse.dropWhile isRustWhitespace).reverse

/-- ASCII uppercase mapping of one character (`char::to_uppercase` restricted
to ASCII; multi-character Unicode expansions are not modelled). -/
def rustToUpperChar (c : Char) : Char :=
  if 'a' ≤ c && c ≤ 'z' then Char.ofNat (c.toNat - 32) else c

/-- Model of `str::to_uppercase` on ASCII input. -/
def rustToUpper (l : List Char) : List Char :=
  l.map rustToUpperChar

/-- Model of `str::split_once(c)`: split at the first occurrence of `c`. -/
def splitOnce (c : Char) : List Char → Option (List Char × List Char)
  | [] => none
  | x :: xs =>
    if x = c then some ([], xs)
    else
      match splitOnce c xs with
      | none => none
      | some (a, b) => some (x :: a, b)

/-- Accumulator loop for `splitOnChar`. -/
def splitOnCharAux (c : Char) : List Char → List Char → List (List Char)
  | [], cur => [cur.reverse]
  | x :: xs, cur =>
    if x = c then cur.reverse :: splitOnCharAux c xs []
    else splitOnCharAux c xs (x :: cur)

/-- Model of `str::split(c)` (keeps empty pieces, as Rust does). -/
def splitOnChar (c : Char) (l : List Char) : List (List Char) :=
  splitOnCharAux c l []

/-- Model of `str::lines`: split on newline, final line ending optional. -/
def rustLines (l : List Char) : List (List Char) :=
  let parts := splitOnChar '\n' l
  match parts.getLast? with
  | some [] => parts.dropLast
  | _ => parts

/-- Model of `str::strip_prefix` on a literal pattern (none when the pattern
is not an initial segment, otherwise the remainder). -/
def stripLit : List Char → List Char → Option (List Char)
  | [], l => some l
  | _ :: _, [] => none
  | p :: ps, x :: xs => if p = x then stripLit ps xs else none

/-- Contiguous-substring test (`str::contains` on a literal pattern). -/
def containsSub (n : List Char) : List Char → Bool
  | [] => n.isEmpty
  | x :: xs => n.isPrefixOf (x :: xs) || containsSub n xs

/-! ## Rust std socket-address parsing (`core::net::parser`)

`SocketAddr::from_str` is modelled after the std parser: a v4 form
`a.b.c.d:port` (each octet at most 3 digits, no leading zeros, value ≤ 255)
or a v6 form `[groups]:port` with an optional `%scope`.  Parsers consume a
`List Char` and return the value together with the unconsumed remainder;
failure consumes nothing. -/

/-- Model of `char::to_digit`. -/
def charToDigit (radix : Nat) (c : Char) : Option Nat :=
  let v :=
    if '0' ≤ c && c ≤ '9' then some (c.toNat - '0'.toNat)
    else if 'a' ≤ c && c ≤ 'z' then some (c.toNat - 'a'.toNat + 10)
    else if 'A' ≤ c && c ≤ 'Z' then some (c.toNat - 'A'.toNat + 10)
    else none
  match v with
  | some d => if d < radix then some d else none
  | none => none

/-- Model of `Parser::read_number`: greedily read digits of the radix, fail on
no digits, on more than `maxDigits` digits, on overflow past `maxVal`, or on a
forbidden leading zero. -/
def readNumber (radix : Nat) (maxDigits : Option Nat) (allowZero : Bool)
    (maxVal : Nat) (l : List Char) : Option (Nat × List Char) :=
  let ds := l.takeWhile fun c => (charToDigit radix c).isSome
  let rest := l.drop ds.length
  let k := ds.length
  if k = 0 then none
  else if (match maxDigits with | some m => decide (m < k) | none => false) then none
  else
    let v := ds.foldl (fun acc c => acc * radix + (charToDigit radix c).getD 0) 0
    if maxVal < v then none
    else if allowZero = false && ds.head? = some '0' && decide (1 < k) then none
    else some (v, rest)

/-- Model of `Parser::read_given_char`. -/
def readChar (c : Char) : List Char → Option (List Char)
  | [] => none
  | x :: xs => if x = c then some xs else none

/-- Model of `Parser::read_ipv4_addr`: four dot-separated octets. -/
def readIpv4 (l : List Char) : Option ((Nat × Nat × Nat × Nat) × List Char) := do
  let (a, l) ← readNumber 10 (some 3) false 255 l
  let l ← readChar '.' l
  let (b, l) ← readNumber 10 (some 3) false 255 l
  let l ← readChar '.' l
  let (c, l) ← readNumber 10 (some 3) false 255 l
  let l ← readChar '.' l
  let (d, l) ← readNumber 10 (some 3) false 255 l
  pure ((a, b, c, d), l)

/-- Model of `Parser::read_separator`: at every position after the first, a
separator character must come first. -/
def readSep (c : Char) (i : Nat) (inner : List Char → Option (α × List Char))
    (l : List Char) : Option (α × List Char) :=
  if i = 0 then inner l
  else
    match readChar c l with
    | none => none
    | some l2 => inner l2

/-- Loop of `read_groups` in `Parser::read_ipv6_addr`: read colon-separated
16-bit groups, allowing a trailing embedded IPv4 address when at least two
slots remain; returns the groups, whether an IPv4 tail was read, and the
remainder.  The fuel starts at the slot limit. -/
def readGroupsAux : Nat → Nat → Nat → List Char → (List Nat × Bool × List Char)
  | 0, _, _, l => ([], false, l)
  | fuel + 1, i, limit, l =>
    match (if i + 1 < limit then readSep ':' i readIpv4 l else none) with
    | some ((a, b, c, d), rest) => ([a * 256 + b, c * 256 + d], true, rest)
    | none =>
      match readSep ':' i (readNumber 16 (some 4) true 65535) l with
      | some (g, rest) =>
        let r := readGroupsAux fuel (i + 1) limit rest
        (g :: r.1, r.2.1, r.2.2)
      | none => ([], false, l)

/-- Read up to `limit` IPv6 groups. -/
def readGroups (limit : Nat) (l : List Char) : (List Nat × Bool × List Char) :=
  readGroupsAux limit 0 limit l

/-- Model of `Parser::read_ipv6_addr`: a head part, optionally a `::` filling
with zero groups, then a tail part; an IPv4 tail may not appear before `::`. -/
def readIpv6 (l : List Char) : Option (List Nat × List Char) :=
  let r := readGroups 8 l
  if r.1.length = 8 then some (r.1, r.2.2)
  else if r.2.1 then none
  else
    match readChar ':' r.2.2 with
    | none => none
    | some l2 =>
      match readChar ':' l2 with
      | none => none
      | some l3 =>
        let t := readGroups (8 - (r.1.length + 1)) l3
        some (r.1 ++ List.replicate (8 - r.1.length - t.1.length) 0 ++ t.1, t.2.2)

/-- Socket address value as produced by `SocketAddr::from_str`. -/
inductive SocketAddr where
  | v4 (a b c d : Nat) (port : Nat)
  | v6 (segs : List Nat) (port : Nat) (scopeId : Nat)
deriving DecidableEq

/-- Model of `Parser::read_port`: a colon then a `u16`, leading zeros allowed. -/
def readPort (l : List Char) : Option (Nat × List Char) :=
  match readChar ':' l with
  | none => none
  | some l2 => readNumber 10 none true 65535 l2

/-- Model of `Parser::read_scope_id`: a percent sign then a `u32`. -/
def readScopeId (l : List Char) : Option (Nat × List Char) :=
  match readChar '%' l with
  | none => none
  | some l2 => readNumber 10 none true 4294967295 l2

/-- Model of `Parser::read_socket_addr_v4`. -/
def readSocketV4 (l : List Char) : Option (SocketAddr × List Char) := do
  let (q, l) ← readIpv4 l
  let (p, l) ← readPort l
  pure (SocketAddr.v4 q.1 q.2.1 q.2.2.1 q.2.2.2 p, l)

/-- Model of `Parser::read_socket_addr_v6`: bracketed IPv6 with optional scope
id, then a port. -/
def readSocketV6 (l : List Char) : Option (SocketAddr × List Char) := do
  let l ← readChar '[' l
  let (segs, l2) ← readIpv6 l
  let scope := match readScopeId l2 with | some (s, _) => s | none => 0
  let l3 := match readScopeId l2 with | some (_, r) => r | none => l2
  let l4 ← readChar ']' l3
  let (p, l5) ← readPort l4
  pure (SocketAddr.v6 segs p scope, l5)

/-- Model of `SocketAddr::from_str`: try the v4 form, then the v6 form, and
require the whole input to be consumed. -/
def SocketAddr.fromStr (l : List Char) : Option SocketAddr :=
  match (match readSocketV4 l with | some x => some x | none => readSocketV6 l) with
  | some (sa, []) => some sa
  | _ => none

/-! ## quote_common: the error type (src/quote_common/src/lib.rs)

Location and backtrace payloads carry no behavioural content and are omitted;
each variant keeps its human-readable message. -/

/-- Error taxonomy of `QuoteError` (messages only). -/
inductive QuoteError where
  | IoError (message : List Char)
  | ParseError (message : List Char)
  | NetworkError (message : List Char)
  | SerializationError (message : List Char)
  | InvalidCommand (message : List Char)
  | ConfigError (message : List Char)
deriving DecidableEq

/-! ## quote_server tcp_handler (src/quote_server/src/tcp_handler.rs) -/

/-- Parsed representation of a valid STREAM command. -/
structure StreamRequest where
  udp_addr : SocketAddr
  tickers : List (List Char)
deriving DecidableEq

/-- Character test used on normalized tickers:
`ch.is_ascii_uppercase() || ch.is_ascii_digit()`. -/
def isStreamTickerChar (c : Char) : Bool :=
  ('A' ≤ c && c ≤ 'Z') || ('0' ≤ c && c ≤ '9')

/-- Normalization of the ticker part: split on commas, trim and uppercase each
token, discard empties (the `split`/`map`/`filter` chain in
`parse_stream_command`). -/
def normalizeTickers (tickersPart : List Char) : List (List Char) :=
  ((splitOnChar ',' tickersPart).map fun t => rustToUpper (rustTrim t)).filter
    fun t => !t.isEmpty

/-- Model of `parse_stream_command`. -/
def parse_stream_command (command : List Char) : Except QuoteError StreamRequest :=
  let trimmed := rustTrim command
  match stripLit "STREAM ".data trimmed with
  | none => .error (.InvalidCommand "missing STREAM prefix".data)
  | some rest =>
    match splitOnce ' ' rest with
    | none => .error (.InvalidCommand "STREAM command missing ticker list".data)
    | some (addrPart, tickersPart) =>
      match stripLit "udp://".data addrPart with
      | none => .error (.InvalidCommand "STREAM command missing udp:// prefix".data)
      | some udpAddr =>
        match SocketAddr.fromStr udpAddr with
        | none => .error (.InvalidCommand ("invalid UDP address: ".data ++ udpAddr))
        | some socketAddr =>
          let tickers := normalizeTickers tickersPart
          if tickers.isEmpty then
            .error (.InvalidCommand "ticker list cannot be empty".data)
          else
            match tickers.find? (fun t => !t.all isStreamTickerChar) with
            | some t => .error (.InvalidCommand ("invalid ticker symbol: ".data ++ t))
            | none => .ok { udp_addr := socketAddr, tickers := tickers }

/-! ## quote_common StockQuote and its serde_json encoding

`StockQuote` derives `Serialize`/`Deserialize`; serde emits the fields in
declaration order.  The JSON layer is modelled at the value level: a JSON
number is a rational (the two-decimal prices and the integer fields of the
claims lie on grids where binary64 shortest-round-trip printing is exact),
and a JSON object is a list of key/value pairs in wire order. -/

/-- Representation of a stock quote transmitted over UDP (the `f64` price is
modelled as a rational). -/
structure StockQuote where
  ticker : List Char
  price : ℚ
  volume : Nat
  timestamp : Int
deriving DecidableEq

/-- JSON values as far as the quote schema needs them. -/
inductive JsonValue where
  | str (s : List Char)
  | num (q : ℚ)
deriving DecidableEq

/-- Derived `Serialize` for `StockQuote`: the four fields in declaration
order. -/
def stockQuoteToJson (q : StockQuote) : List (List Char × JsonValue) :=
  [("ticker".data, .str q.ticker),
   ("price".data, .num q.price),
   ("volume".data, .num (q.volume : ℚ)),
   ("timestamp".data, .num (q.timestamp : ℚ))]

/-- Read a JSON string (ticker field). -/
def jsonAsString : JsonValue → Option (List Char)
  | .str s => some s
  | _ => none

/-- Read a JSON number as an `f64` (price field; any number accepted). -/
def jsonAsF64 : JsonValue → Option ℚ
  | .num q => some q
  | _ => none

/-- Read a JSON number as a `u32` (volume field; must be an integer in
range). -/
def jsonAsU32 : JsonValue → Option Nat
  | .num q => if q.den = 1 && 0 ≤ q.num && q.num < 4294967296 then some q.num.toNat else none
  | _ => none

/-- Read a JSON number as an `i64` (timestamp field; must be an integer in
range). -/
def jsonAsI64 : JsonValue → Option Int
  | .num q =>
    if q.den = 1 && -9223372036854775808 ≤ q.num && q.num < 9223372036854775808
    then some q.num else none
  | _ => none

/-- Field loop of the derived `Deserialize` for `StockQuote`: fields may come
in any order, a duplicate field is an error, an unknown field is ignored, and
at the end every field must be present. -/
def stockQuoteFieldsLoop : List (List Char × JsonValue) → Option (List Char) →
    Option ℚ → Option Nat → Option Int → Option StockQuote
  | [], t, p, v, ts => do
    let t2 ← t
    let p2 ← p
    let v2 ← v
    let ts2 ← ts
    pure ⟨t2, p2, v2, ts2⟩
  | (k, val) :: rest, t, p, v, ts =>
    if k = "ticker".data then
      match t with
      | some _ => none
      | none =>
        match jsonAsString val with
        | some s => stockQuoteFieldsLoop rest (some s) p v ts
        | none => none
    else if k = "price".data then
      match p with
      | some _ => none
      | none =>
        match jsonAsF64 val with
        | some x => stockQuoteFieldsLoop rest t (some x) v ts
        | none => none
    else if k = "volume".data then
      match v with
      | some _ => none
      | none =>
        match jsonAsU32 val with
        | some x => stockQuoteFieldsLoop rest t p (some x) ts
        | none => none
    else if k = "timestamp".data then
      match ts with
      | some _ => none
      | none =>
        match jsonAsI64 val with
        | some x => stockQuoteFieldsLoop rest t p v (some x)
        | none => none
    else stockQuoteFieldsLoop rest t p v ts

/-- Derived `Deserialize` for `StockQuote` from a JSON object. -/
def stockQuoteFromJson (fields : List (List Char × JsonValue)) : Option StockQuote :=
  stockQuoteFieldsLoop fields none none none none

/-- Well-formedness of a quote per the spec's data model: non-empty uppercase
alphanumeric ticker of at most 16 characters, non-negative two-decimal price,
`u32` volume, `i64` timestamp. -/
def WellFormedQuote (q : StockQuote) : Prop :=
  q.ticker ≠ [] ∧ q.ticker.length ≤ 16 ∧ (∀ c ∈ q.ticker, isStreamTickerChar c) ∧
  0 ≤ q.price ∧ (∃ c : ℕ, q.price = (c : ℚ) / 100) ∧
  q.volume < 4294967296 ∧
  -9223372036854775808 ≤ q.timestamp ∧ q.timestamp < 9223372036854775808

/-- Decimal digits of a natural number (`Nat.repr`). -/
def renderNat (n : Nat) : List Char :=
  (Nat.repr n).data

/-- Decimal digits of an integer (`Int.repr`). -/
def renderInt (i : Int) : List Char :=
  (Int.repr i).data

/-- Shortest-round-trip rendering of a non-negative price lying on the
two-decimal grid, as produced by serde_json for the corresponding `f64`
(trailing zero digits dropped, an integral value printed with one zero
decimal). -/
def renderPrice (q : ℚ) : List Char :=
  if (q * 100).den = 1 then
    let cents : ℤ := (q * 100).num
    let w := cents / 100
    let f := cents % 100
    if f = 0 then renderInt w ++ ".0".data
    else if f % 10 = 0 then renderInt w ++ ".".data ++ renderInt (f / 10)
    else if f < 10 then renderInt w ++ ".0".data ++ renderInt f
    else renderInt w ++ ".".data ++ renderInt f
  else "?".data

/-- Compact textual encoding of a quote as written by `serde_json::to_string`
and `serde_json::to_vec` (no whitespace, fields in declaration order). -/
def render_stock_quote (q : StockQuote) : List Char :=
  "\x7b\"ticker\":\"".data ++ q.ticker ++
  "\",\"price\":".data ++ renderPrice q.price ++
  ",\"volume\":".data ++ renderNat q.volume ++
  ",\"timestamp\":".data ++ renderInt q.timestamp ++ "\x7d".data

/-! ## quote_server tcp_handler: handle_connection and the accept loop -/

/-- One response line written by `handle_connection` given the line read from
the peer (`none` models a connection that closed before sending anything) and
whether `request_tx.send` succeeded.  The textual `ERR` reason wraps the
message carried by the `InvalidCommand` error. -/
def quoteErrorMessage : QuoteError → List Char
  | .IoError m => m
  | .ParseError m => m
  | .NetworkError m => m
  | .SerializationError m => m
  | .InvalidCommand m => m
  | .ConfigError m => m

/-- Model of `handle_connection`: the list of response lines written to the
peer, in order. -/
def handle_connection (line : Option (List Char)) (sendOk : Bool) :
    List (List Char) :=
  match line with
  | none => []
  | some l =>
    match parse_stream_command l with
    | .ok _ =>
      if sendOk then ["OK\n".data]
      else ["ERR server unavailable\n".data]
    | .error e => ["ERR ".data ++ quoteErrorMessage e ++ "\n".data]

/-- Events observed by one iteration of the accept loop in
`start_tcp_server`. -/
inductive AcceptEvent where
  | shutdown
  | conn (line : Option (List Char)) (sendOk : Bool)
  | wouldBlock
  | acceptErr
deriving DecidableEq

/-- Whether the accept loop keeps running after the event: only the shutdown
signal stops it; connection handling (including handler errors) never does. -/
def acceptor_step : AcceptEvent → Bool
  | .shutdown => false
  | .conn _ _ => true
  | .wouldBlock => true
  | .acceptErr => true

/-! ## quote_server udp_streamer: dispatcher state (src/quote_server/src/udp_streamer.rs)

Monotonic instants are modelled as natural numbers; `last_ping.elapsed()` at
time `now` is `now - lastPing`.  The dispatcher directory is an association
list `id ↦ entry` with unique keys (a `HashMap` in the source); lock
poisoning, a cross-thread artifact, is not modelled. -/

/-- Directory entry for one registered client (`ClientChannels`), keeping the
fields the claims are about.  `senderOpen` stands for the outbound channel
still having its `Sender` alive. -/
structure ClientEntry where
  tickers : List (List Char)
  lastPing : Nat
  timeout : Nat
  udpAddr : SocketAddr
deriving DecidableEq

/-- Teardown actions performed on an evicted client, in order: dropping the
outbound sender closes the channel, then the worker thread is joined. -/
inductive EvictAction where
  | closeOutbound (id : Nat)
  | joinWorker (id : Nat)
deriving DecidableEq

/-- First pass of `purge_expired_clients`: ids whose elapsed time since the
last PING strictly exceeds their timeout, in directory order. -/
def expiredIds (now : Nat) (clients : List (Nat × ClientEntry)) : List Nat :=
  (clients.filter fun c => c.2.timeout < now - c.2.lastPing).map fun c => c.1

/-- Remove the entry with the given id (`HashMap::remove` on unique keys). -/
def removeId (i : Nat) (clients : List (Nat × ClientEntry)) :
    List (Nat × ClientEntry) :=
  clients.filter fun c => c.1 ≠ i

/-- Model of `purge_expired_clients`: collect the expired ids, then for each
remove it from the directory, drop its sender and join its worker.  Returns
the remaining directory and the teardown actions in execution order. -/
def purge_expired_clients (now : Nat) (clients : List (Nat × ClientEntry)) :
    List (Nat × ClientEntry) × List EvictAction :=
  (expiredIds now clients).foldl
    (fun acc i => (removeId i acc.1, acc.2 ++ [.closeOutbound i, .joinWorker i]))
    (clients, [])

/-- Model of `register_client` (the directory part): insert a fresh entry
whose `last_ping` is initialized to the current instant, under the next id. -/
def register_client (now : Nat) (keepaliveTimeout : Nat)
    (clients : List (Nat × ClientEntry)) (nextId : Nat) (request : StreamRequest) :
    List (Nat × ClientEntry) × Nat :=
  (clients ++ [(nextId,
    { tickers := request.tickers, lastPing := now,
      timeout := keepaliveTimeout, udpAddr := request.udp_addr })],
   nextId + 1)

/-- The four keepalive bytes `PING`. -/
def pingBytes : List Nat := [80, 73, 78, 71]

/-- Update the first entry satisfying the test (the dispatcher's PING scan
stops at the first matching client). -/
def updateFirst (test : ClientEntry → Bool) (upd : ClientEntry → ClientEntry) :
    List (Nat × ClientEntry) → List (Nat × ClientEntry)
  | [] => []
  | c :: rest =>
    if test c.2 then (c.1, upd c.2) :: rest
    else c :: updateFirst test upd rest

/-- Model of the PING branch of `dispatcher_loop`: a datagram is read into a
16-byte buffer; when the received bytes are exactly `PING`, the first client
whose `udp_addr` equals the sender has its `last_ping` set to now; anything
else leaves the directory unchanged. -/
def dispatcher_handle_ping (now : Nat) (payload : List Nat) (fromAddr : SocketAddr)
    (clients : List (Nat × ClientEntry)) : List (Nat × ClientEntry) :=
  if payload.take 16 = pingBytes then
    updateFirst (fun c => c.udpAddr = fromAddr) (fun c => { c with lastPing := now })
      clients
  else clients

/-! ## quote_server generator (src/quote_server/src/generator.rs)

Prices are modelled as rationals; `f64::round` rounds half away from zero. -/

/-- Default initial price when configuration omits a ticker. -/
def DEFAULT_INITIAL_PRICE : ℚ := 100

/-- Rounding of `f64::round`: to the nearest integer, ties away from zero. -/
def roundHalfAway (x : ℚ) : ℤ :=
  if 0 ≤ x then ⌊x + 1 / 2⌋ else -⌊-x + 1 / 2⌋

/-- Association-list lookup (`HashMap::get`). -/
def lookupTicker (ticker : List Char) : List (List Char × ℚ) → Option ℚ
  | [] => none
  | p :: rest => if p.1 = ticker then some p.2 else lookupTicker ticker rest

/-- Association-list insert (`HashMap::insert`): replace the existing binding
or append a new one. -/
def insertTicker (ticker : List Char) (price : ℚ) :
    List (List Char × ℚ) → List (List Char × ℚ)
  | [] => [(ticker, price)]
  | p :: rest =>
    if p.1 = ticker then (ticker, price) :: rest
    else p :: insertTicker ticker price rest

/-- Model of `QuoteGenerator::next_price`: apply the random walk factor, floor
at 0.01, round to two decimals, persist the rounded value, and return it
together with the updated price map. -/
def next_price (prices : List (List Char × ℚ)) (ticker : List Char) (delta : ℚ) :
    ℚ × List (List Char × ℚ) :=
  let current := (lookupTicker ticker prices).getD DEFAULT_INITIAL_PRICE
  let updated := max (current * (1 + delta)) (1 / 100)
  let rounded := (roundHalfAway (updated * 100) : ℚ) / 100
  (rounded, insertTicker ticker rounded prices)

/-! ## Ticker-file loading (server src/quote_server/src/config.rs and client
src/quote_client/src/cli.rs)

The file read is modelled by its contents; both loaders run the same
normalization loop over the lines. -/

/-- One iteration of the loader loop: trim the line, skip it when blank,
otherwise push the uppercased symbol. -/
def tickerFoldStep (acc : List (List Char)) (line : List Char) :
    List (List Char) :=
  let t := rustTrim line
  if t.isEmpty then acc else acc ++ [rustToUpper t]

/-- Model of `config::load_tickers` on the file contents: trim each line, skip
blanks, push the uppercased symbol; an empty result is a `ConfigError`. -/
def config_load_tickers (contents : List Char) : Except QuoteError (List (List Char)) :=
  let tickers := (rustLines contents).foldl tickerFoldStep []
  if tickers.isEmpty then
    .error (.ConfigError "ticker file contained no symbols".data)
  else .ok tickers

/-- Model of `cli::load_tickers` on the file contents (same loop as the server
loader). -/
def cli_load_tickers (contents : List Char) : Except QuoteError (List (List Char)) :=
  let tickers := (rustLines contents).foldl tickerFoldStep []
  if tickers.isEmpty then
    .error (.ConfigError "ticker file contained no symbols".data)
  else .ok tickers

/-- The normalization both loaders implement: non-blank lines in file order,
trimmed and uppercased. -/
def normalizedTickerLines (contents : List Char) : List (List Char) :=
  (((rustLines contents).map rustTrim).filter fun t => !t.isEmpty).map rustToUpper

/-! ## quote_server udp_streamer: the per-client sender loop (`client_loop`)

Each iteration first reads the shared `last_ping` and computes the elapsed
time; if it exceeds the keepalive timeout the loop exits before receiving
anything.  Otherwise it waits on the quote channel: a received quote is
serialized and sent as one datagram (send errors are logged and do not stop
the loop), a receive timeout continues, a disconnected channel exits. -/

/-- What the bounded receive on the client's quote channel yields in one
iteration. -/
inductive RecvOutcome where
  | quote (q : StockQuote)
  | timedOut
  | disconnected
deriving DecidableEq

/-- One iteration of `client_loop`: `none` means the loop exits; `some sent`
lists the datagrams sent this iteration (as serialized payloads). -/
def client_iteration (keepaliveTimeout : Nat) (elapsed : Nat) (r : RecvOutcome) :
    Option (List (List Char)) :=
  if keepaliveTimeout < elapsed then none
  else
    match r with
    | .quote q => some [render_stock_quote q]
    | .timedOut => some []
    | .disconnected => none

/-- Run of `client_loop` over a trace of iteration observations (elapsed time
since the last PING, paired with the channel outcome); returns every datagram
sent before the loop exits. -/
def client_run (keepaliveTimeout : Nat) :
    List (Nat × RecvOutcome) → List (List Char)
  | [] => []
  | (e, r) :: rest =>
    match client_iteration keepaliveTimeout e r with
    | none => []
    | some sent => sent ++ client_run keepaliveTimeout rest

/-! ## Helper lemmas -/

theorem stripLit_self_append (p r : List Char) : stripLit p (p ++ r) = some r := by
  induction p with
  | nil => rfl
  | cons c ps ih => simp [stripLit, ih]

theorem splitOnce_eq_of_not_mem (c : Char) (a t : List Char) (h : c ∉ a) :
    splitOnce c (a ++ c :: t) = some (a, t) := by
  induction a with
  | nil => simp [splitOnce]
  | cons x xs ih =>
    have hx : ¬ x = c := fun hh => h (by simp [hh])
    have hxs : c ∉ xs := fun hh => h (by simp [hh])
    simp [splitOnce, hx, ih hxs]

theorem isPrefixOf_self_append (p r : List Char) : p.isPrefixOf (p ++ r) = true := by
  induction p with
  | nil => simp [List.isPrefixOf]
  | cons x xs ih => simp [List.isPrefixOf, ih]

theorem containsSub_of_isPrefixOf (n l : List Char) (h : n.isPrefixOf l = true) :
    containsSub n l = true := by
  cases l with
  | nil =>
    cases n with
    | nil => rfl
    | cons x xs => simp [List.isPrefixOf] at h
  | cons x xs => simp [containsSub, h]

theorem mem_normalizeTickers_ne_nil (T t : List Char) (ht : t ∈ normalizeTickers T) :
    t ≠ [] := by
  have := (List.mem_filter.mp ht).2
  simpa using this

/-- Claim C2: every input matching the STREAM grammar — the `STREAM ` prefix,
a `udp://` address accepted by the socket-address parser, then a
comma-separated ticker list that is non-empty after trimming, uppercasing and
dropping empty tokens, all tokens alphanumeric uppercase — is accepted by
`parse_stream_command`, and the resulting tickers are exactly the normalized
tokens: non-empty, no empty element, and only characters in A-Z0-9. -/
theorem parse_stream_command_accepts_grammar (S A T : List Char)
    (hdecomp : rustTrim S = "STREAM ".data ++ ("udp://".data ++ A ++ ' ' :: T))
    (hA : ' ' ∉ A)
    (haddr : (SocketAddr.fromStr A).isSome = true)
    (hne : normalizeTickers T ≠ [])
    (hvalid : ∀ t ∈ normalizeTickers T, t.all isStreamTickerChar = true) :
    ∃ sa, parse_stream_command S = .ok ⟨sa, normalizeTickers T⟩ ∧
      normalizeTickers T ≠ [] ∧
      ∀ t ∈ normalizeTickers T, t ≠ [] ∧ ∀ c ∈ t, isStreamTickerChar c = true := by
  have h1 : stripLit "STREAM ".data (rustTrim S) =
      some ("udp://".data ++ A ++ ' ' :: T) := by
    rw [hdecomp]; exact stripLit_self_append _ _
  have h2 : splitOnce ' ' ("udp://".data ++ A ++ ' ' :: T) =
      some ("udp://".data ++ A, T) := by
    apply splitOnce_eq_of_not_mem
    intro hc
    rcases List.mem_append.mp hc with hu | ha2
    · revert hu; decide
    · exact hA ha2
  have h3 : stripLit "udp://".data ("udp://".data ++ A) = some A :=
    stripLit_self_append _ _
  obtain ⟨sa, hsa⟩ := Option.isSome_iff_exists.mp haddr
  refine ⟨sa, ?_, hne, ?_⟩
  · have hni : (normalizeTickers T).isEmpty = false := by
      cases hh : normalizeTickers T with
      | nil => exact absurd hh hne
      | cons a as => rfl
    have hfind : (normalizeTickers T).find?
        (fun t => !t.all isStreamTickerChar) = none := by
      rw [List.find?_eq_none]
      intro t ht
      simp [hvalid t ht]
    unfold parse_stream_command
    try dsimp only
    rw [h1]
    try dsimp only
    rw [h2]
    try dsimp only
    rw [h3]
    try dsimp only
    rw [hsa]
    try dsimp only
    rw [hni]
    try dsimp only
    rw [hfind]
    simp
  · intro t ht
    refine ⟨mem_normalizeTickers_ne_nil T t ht, ?_⟩
    intro c hc
    exact List.all_eq_true.mp (hvalid t ht) c hc

/-- Witness for C2: the spec's scenario E5,
`STREAM udp://127.0.0.1:9000 aapl, tSLa ` is accepted with tickers AAPL and
TSLA. -/
theorem parse_stream_command_accepts_grammar_witness :
    parse_stream_command "STREAM udp://127.0.0.1:9000 aapl, tSLa ".data =
      .ok ⟨SocketAddr.v4 127 0 0 1 9000, ["AAPL".data, "TSLA".data]⟩ ∧
    ∃ sa, parse_stream_command "STREAM udp://127.0.0.1:9000 aapl, tSLa ".data =
        .ok ⟨sa, normalizeTickers "aapl, tSLa".data⟩ ∧
      normalizeTickers "aapl, tSLa".data ≠ [] ∧
      ∀ t ∈ normalizeTickers "aapl, tSLa".data,
        t ≠ [] ∧ ∀ c ∈ t, isStreamTickerChar c = true := by
  constructor
  · rfl
  · exact parse_stream_command_accepts_grammar
      "STREAM udp://127.0.0.1:9000 aapl, tSLa ".data
      "127.0.0.1:9000".data "aapl, tSLa".data
      (by decide) (by decide) (by decide) (by decide) (by decide)

/-- Claim C3: a line without the `STREAM ` prefix, a missing ticker list, a
missing `udp://` prefix, an address rejected by the socket-address parser,
and a ticker list that is empty after normalization all make
`parse_stream_command` return an `InvalidCommand` error; the reason for a
non-STREAM line contains the substring `STREAM`, and the reason for an
unparseable address contains the substring `invalid UDP address`. -/
theorem parse_stream_command_rejects :
    (∀ S, stripLit "STREAM ".data (rustTrim S) = none →
      parse_stream_command S =
        .error (.InvalidCommand "missing STREAM prefix".data) ∧
      containsSub "STREAM".data "missing STREAM prefix".data = true) ∧
    (∀ S rest, stripLit "STREAM ".data (rustTrim S) = some rest →
      splitOnce ' ' rest = none →
      parse_stream_command S =
        .error (.InvalidCommand "STREAM command missing ticker list".data)) ∧
    (∀ S rest a t, stripLit "STREAM ".data (rustTrim S) = some rest →
      splitOnce ' ' rest = some (a, t) → stripLit "udp://".data a = none →
      parse_stream_command S =
        .error (.InvalidCommand "STREAM command missing udp:// prefix".data)) ∧
    (∀ S rest a t addr, stripLit "STREAM ".data (rustTrim S) = some rest →
      splitOnce ' ' rest = some (a, t) → stripLit "udp://".data a = some addr →
      SocketAddr.fromStr addr = none →
      parse_stream_command S =
        .error (.InvalidCommand ("invalid UDP address: ".data ++ addr)) ∧
      containsSub "invalid UDP address".data
        ("invalid UDP address: ".data ++ addr) = true) ∧
    (∀ S rest a t addr sa, stripLit "STREAM ".data (rustTrim S) = some rest →
      splitOnce ' ' rest = some (a, t) → stripLit "udp://".data a = some addr →
      SocketAddr.fromStr addr = some sa → normalizeTickers t = [] →
      parse_stream_command S =
        .error (.InvalidCommand "ticker list cannot be empty".data)) := by
  refine ⟨?_, ?_, ?_, ?_, ?_⟩
  · intro S h1
    refine ⟨?_, by decide⟩
    unfold parse_stream_command
    try dsimp only
    rw [h1]
  · intro S rest h1 h2
    unfold parse_stream_command
    try dsimp only
    rw [h1]
    try dsimp only
    rw [h2]
  · intro S rest a t h1 h2 h3
    unfold parse_stream_command
    try dsimp only
    rw [h1]
    try dsimp only
    rw [h2]
    try dsimp only
    rw [h3]
  · intro S rest a t addr h1 h2 h3 h4
    constructor
    · unfold parse_stream_command
      try dsimp only
      rw [h1]
      try dsimp only
      rw [h2]
      try dsimp only
      rw [h3]
      try dsimp only
      rw [h4]
    · rw [show "invalid UDP address: ".data =
          "invalid UDP address".data ++ ": ".data from by decide,
        List.append_assoc]
      exact containsSub_of_isPrefixOf _ _ (isPrefixOf_self_append _ _)
  · intro S rest a t addr sa h1 h2 h3 h4 h5
    have h6 : (normalizeTickers t).isEmpty = true := by rw [h5]; rfl
    unfold parse_stream_command
    try dsimp only
    rw [h1]
    try dsimp only
    rw [h2]
    try dsimp only
    rw [h3]
    try dsimp only
    rw [h4]
    try dsimp only
    rw [h6]
    simp

/-- Witness for C3: the spec's boundary scenarios — a `START` line, a command
without a ticker list, a `tcp://` address, scenario E3's `not-an-addr`, and a
ticker list that normalizes to empty. -/
theorem parse_stream_command_rejects_witness :
    (parse_stream_command "START udp://127.0.0.1:9000 AAPL".data =
        .error (.InvalidCommand "missing STREAM prefix".data) ∧
      containsSub "STREAM".data "missing STREAM prefix".data = true) ∧
    parse_stream_command "STREAM udp://127.0.0.1:9000".data =
      .error (.InvalidCommand "STREAM command missing ticker list".data) ∧
    parse_stream_command "STREAM tcp://127.0.0.1:9000 AAPL".data =
      .error (.InvalidCommand "STREAM command missing udp:// prefix".data) ∧
    (parse_stream_command "STREAM udp://not-an-addr AAPL".data =
        .error (.InvalidCommand
          ("invalid UDP address: ".data ++ "not-an-addr".data)) ∧
      containsSub "invalid UDP address".data
        ("invalid UDP address: ".data ++ "not-an-addr".data) = true) ∧
    parse_stream_command "STREAM udp://127.0.0.1:9000 ,,".data =
      .error (.InvalidCommand "ticker list cannot be empty".data) := by
  obtain ⟨c1, c2, c3, c4, c5⟩ := parse_stream_command_rejects
  refine ⟨c1 _ (by decide),
    c2 _ "udp://127.0.0.1:9000".data (by decide) (by decide),
    c3 _ "tcp://127.0.0.1:9000 AAPL".data "tcp://127.0.0.1:9000".data
      "AAPL".data (by decide) (by decide) (by decide),
    c4 _ "udp://not-an-addr AAPL".data "udp://not-an-addr".data "AAPL".data
      "not-an-addr".data (by decide) (by decide) (by decide) (by decide),
    c5 _ "udp://127.0.0.1:9000 ,,".data "udp://127.0.0.1:9000".data ",,".data
      "127.0.0.1:9000".data (SocketAddr.v4 127 0 0 1 9000)
      (by decide) (by decide) (by decide) (by decide) (by decide)⟩

theorem jsonAsU32_natCast (n : Nat) (h : n < 4294967296) :
    jsonAsU32 (.num (n : ℚ)) = some n := by
  have h2 : ((n : ℤ) < 4294967296) := by exact_mod_cast h
  simp [jsonAsU32, h2]

theorem jsonAsI64_intCast (i : Int) (h1 : -9223372036854775808 ≤ i)
    (h2 : i < 9223372036854775808) :
    jsonAsI64 (.num (i : ℚ)) = some i := by
  simp [jsonAsI64, h1, h2]

/-- Claim C1: for every well-formed quote, deserializing the JSON
serialization gives back the same quote field by field, and the serialized
object carries the fields in the order ticker, price, volume, timestamp. -/
theorem stock_quote_json_roundtrip (q : StockQuote) (h : WellFormedQuote q) :
    stockQuoteFromJson (stockQuoteToJson q) = some q ∧
    (stockQuoteToJson q).map Prod.fst =
      ["ticker".data, "price".data, "volume".data, "timestamp".data] := by
  obtain ⟨-, -, -, -, -, hvol, hts1, hts2⟩ := h
  constructor
  · show stockQuoteFieldsLoop
      [("ticker".data, .str q.ticker), ("price".data, .num q.price),
       ("volume".data, .num (q.volume : ℚ)),
       ("timestamp".data, .num (q.timestamp : ℚ))]
      none none none none = some q
    rw [stockQuoteFieldsLoop, if_pos rfl]
    try dsimp only [jsonAsString]
    rw [stockQuoteFieldsLoop, if_neg (by decide), if_pos rfl]
    try dsimp only [jsonAsF64]
    rw [stockQuoteFieldsLoop, if_neg (by decide), if_neg (by decide), if_pos rfl]
    try dsimp only
    rw [jsonAsU32_natCast _ hvol]
    try dsimp only
    rw [stockQuoteFieldsLoop, if_neg (by decide), if_neg (by decide),
      if_neg (by decide), if_pos rfl]
    try dsimp only
    rw [jsonAsI64_intCast _ hts1 hts2]
    rfl
  · rfl

/-- Witness for C1: the round-trip at the concrete quote of scenario E6. -/
theorem stock_quote_json_roundtrip_witness :
    stockQuoteFromJson (stockQuoteToJson
        ⟨"AAPL".data, (15025 : ℚ) / 100, 3500, 1699564800000⟩) =
      some ⟨"AAPL".data, (15025 : ℚ) / 100, 3500, 1699564800000⟩ ∧
    (stockQuoteToJson ⟨"AAPL".data, (15025 : ℚ) / 100, 3500, 1699564800000⟩).map
        Prod.fst =
      ["ticker".data, "price".data, "volume".data, "timestamp".data] :=
  stock_quote_json_roundtrip ⟨"AAPL".data, (15025 : ℚ) / 100, 3500, 1699564800000⟩
    ⟨by decide, by decide, by decide, by norm_num, ⟨15025, by norm_num⟩,
     by norm_num, by norm_num, by norm_num⟩

/-- Claim C9: the quote of scenario E6 serializes to exactly the compact JSON
text with fixed field order and no surrounding whitespace. -/
theorem render_stock_quote_e6 :
    render_stock_quote ⟨"AAPL".data, (15025 : ℚ) / 100, 3500, 1699564800000⟩ =
      "\x7b\"ticker\":\"AAPL\",\"price\":150.25,\"volume\":3500,\"timestamp\":1699564800000\x7d".data := by
  have h0 : (15025 : ℚ) / 100 * 100 = (15025 : ℚ) := by norm_num
  unfold render_stock_quote renderPrice
  dsimp only
  rw [h0]
  rw [Rat.den_ofNat, Rat.num_ofNat]
  norm_num
  decide

/-- Claim C6: a connection carrying a non-empty line gets `OK` exactly when
the line parses as a STREAM command and the dispatcher-channel send succeeds;
a successful parse with a failed send gets `ERR server unavailable` and the
acceptor keeps running; a failed parse gets `ERR <reason>`; and exactly one
response line is written. -/
theorem handle_connection_spec (line : List Char) (sendOk : Bool) :
    (handle_connection (some line) sendOk = ["OK\n".data] ↔
      (∃ r, parse_stream_command line = .ok r) ∧ sendOk = true) ∧
    ((∃ r, parse_stream_command line = .ok r) → sendOk = false →
      handle_connection (some line) sendOk = ["ERR server unavailable\n".data] ∧
      acceptor_step (.conn (some line) sendOk) = true) ∧
    (∀ e, parse_stream_command line = .error e →
      handle_connection (some line) sendOk =
        ["ERR ".data ++ quoteErrorMessage e ++ "\n".data]) ∧
    (handle_connection (some line) sendOk).length = 1 := by
  cases hp : parse_stream_command line with
  | ok r =>
    cases sendOk with
    | true => simp [handle_connection, hp, acceptor_step]
    | false => simp [handle_connection, hp, acceptor_step]
  | error e =>
    cases sendOk with
    | true => simp [handle_connection, hp, acceptor_step]
    | false => simp [handle_connection, hp, acceptor_step]

/-- Witness for C6: a failed dispatcher send on a valid STREAM line produces
`ERR server unavailable` without stopping the acceptor, and a `START` line
produces `ERR` with the parse reason. -/
theorem handle_connection_spec_witness :
    (handle_connection (some "STREAM udp://127.0.0.1:9000 AAPL".data) false =
        ["ERR server unavailable\n".data] ∧
      acceptor_step (.conn (some "STREAM udp://127.0.0.1:9000 AAPL".data) false) =
        true) ∧
    handle_connection (some "START udp://127.0.0.1:9000 AAPL".data) true =
      ["ERR ".data ++
        quoteErrorMessage (.InvalidCommand "missing STREAM prefix".data) ++
        "\n".data] := by
  constructor
  · exact (handle_connection_spec "STREAM udp://127.0.0.1:9000 AAPL".data
      false).2.1
      ⟨⟨SocketAddr.v4 127 0 0 1 9000, ["AAPL".data]⟩, rfl⟩ rfl
  · exact (handle_connection_spec "START udp://127.0.0.1:9000 AAPL".data
      true).2.2.1 (.InvalidCommand "missing STREAM prefix".data) rfl

theorem lookupTicker_insertTicker (t : List Char) (p : ℚ)
    (l : List (List Char × ℚ)) :
    lookupTicker t (insertTicker t p l) = some p := by
  induction l with
  | nil => simp [insertTicker, lookupTicker]
  | cons x xs ih =>
    by_cases hx : x.1 = t
    · simp [insertTicker, hx, lookupTicker]
    · simp [insertTicker, hx, lookupTicker, ih]

/-- Claim C7: on each tick the generator's new price is
`max(0.01, previous * (1 + delta))` rounded half away from zero to two
decimals; this rounded value is persisted as the new previous price, and
every emitted price is at least 0.01.  The random draw is abstracted as the
parameter `delta`, constrained to the sampling interval. -/
theorem next_price_spec (prices : List (List Char × ℚ)) (ticker : List Char)
    (delta : ℚ) (hd1 : -(2 / 100) < delta) (hd2 : delta < 2 / 100) :
    (next_price prices ticker delta).1 =
      (roundHalfAway
        (max (((lookupTicker ticker prices).getD DEFAULT_INITIAL_PRICE) *
          (1 + delta)) (1 / 100) * 100) : ℚ) / 100 ∧
    lookupTicker ticker (next_price prices ticker delta).2 =
      some (next_price prices ticker delta).1 ∧
    1 / 100 ≤ (next_price prices ticker delta).1 := by
  refine ⟨rfl, lookupTicker_insertTicker _ _ _, ?_⟩
  show (1 : ℚ) / 100 ≤
    (roundHalfAway
      (max (((lookupTicker ticker prices).getD DEFAULT_INITIAL_PRICE) *
        (1 + delta)) (1 / 100) * 100) : ℚ) / 100
  set u := max (((lookupTicker ticker prices).getD DEFAULT_INITIAL_PRICE) *
    (1 + delta)) (1 / 100) with hu
  have hu1 : (1 : ℚ) / 100 ≤ u := le_max_right _ _
  have h100 : (1 : ℚ) ≤ u * 100 := by nlinarith
  have hr : (1 : ℤ) ≤ roundHalfAway (u * 100) := by
    unfold roundHalfAway
    rw [if_pos (by linarith)]
    exact Int.le_floor.mpr (by push_cast; linarith)
  rw [div_le_div_iff₀ (by norm_num) (by norm_num)]
  have : (1 : ℚ) ≤ (roundHalfAway (u * 100) : ℚ) := by exact_mod_cast hr
  linarith

/-- Witness for C7: one price step from the default price with a one-percent
increase. -/
theorem next_price_spec_witness :
    (next_price [] "AAPL".data (1 / 100)).1 =
      (roundHalfAway
        (max (((lookupTicker "AAPL".data []).getD DEFAULT_INITIAL_PRICE) *
          (1 + 1 / 100)) (1 / 100) * 100) : ℚ) / 100 ∧
    lookupTicker "AAPL".data (next_price [] "AAPL".data (1 / 100)).2 =
      some (next_price [] "AAPL".data (1 / 100)).1 ∧
    1 / 100 ≤ (next_price [] "AAPL".data (1 / 100)).1 :=
  next_price_spec [] "AAPL".data (1 / 100) (by norm_num) (by norm_num)

theorem load_tickers_foldl (lines : List (List Char)) (acc : List (List Char)) :
    lines.foldl tickerFoldStep acc =
    acc ++ (((lines.map rustTrim).filter fun t => !t.isEmpty).map rustToUpper) := by
  induction lines generalizing acc with
  | nil => simp
  | cons x xs ih =>
    rw [List.foldl_cons, ih, List.map_cons, List.filter_cons]
    by_cases hx : (rustTrim x).isEmpty = true
    · simp [tickerFoldStep, hx]
    · simp [tickerFoldStep, hx]

/-- Claim C8: both ticker-file loaders return the file's non-blank lines in
file order, trimmed and uppercased, with no duplicate suppression (loading
`aapl` and `AAPL` yields both), and fail with a `ConfigError` exactly when
nothing remains after normalization. -/
theorem load_tickers_spec (contents : List Char) :
    config_load_tickers contents = cli_load_tickers contents ∧
    (config_load_tickers contents =
        .error (.ConfigError "ticker file contained no symbols".data) ↔
      normalizedTickerLines contents = []) ∧
    (normalizedTickerLines contents ≠ [] →
      config_load_tickers contents = .ok (normalizedTickerLines contents)) ∧
    config_load_tickers "aapl\nAAPL\n".data = .ok ["AAPL".data, "AAPL".data] := by
  have hf := load_tickers_foldl (rustLines contents) []
  rw [List.nil_append] at hf
  refine ⟨rfl, ?_, ?_, rfl⟩
  · unfold config_load_tickers
    rw [hf]
    cases hX : normalizedTickerLines contents with
    | nil =>
      rw [show (((rustLines contents).map rustTrim).filter
          fun t => !t.isEmpty).map rustToUpper = [] from hX]
      simp
    | cons a as =>
      rw [show (((rustLines contents).map rustTrim).filter
          fun t => !t.isEmpty).map rustToUpper = a :: as from hX]
      simp
  · intro hne
    unfold config_load_tickers
    rw [hf]
    cases hX : normalizedTickerLines contents with
    | nil => exact absurd hX hne
    | cons a as =>
      rw [show (((rustLines contents).map rustTrim).filter
          fun t => !t.isEmpty).map rustToUpper = a :: as from hX]
      simp [hX]

/-- Witness for C8: the loader on the two-line file `aapl`, `AAPL` and on an
all-blank file. -/
theorem load_tickers_spec_witness :
    config_load_tickers "aapl\nAAPL\n".data = .ok ["AAPL".data, "AAPL".data] ∧
    config_load_tickers "  \n\n ".data =
      .error (.ConfigError "ticker file contained no symbols".data) := by
  constructor
  · exact (load_tickers_spec "aapl\nAAPL\n".data).2.2.2
  · exact ((load_tickers_spec "  \n\n ".data).2.1).mpr (by decide)

/-- Claim C10: the per-subscriber sender worker re-checks the shared
`last_ping` at the top of every iteration and exits as soon as the observed
elapsed time exceeds the keepalive timeout; consequently every datagram it
sends belongs to an iteration whose observed elapsed time was within the
timeout, and once an iteration observes a lapsed window nothing after that
iteration is sent — independently of the dispatcher's eviction sweep. -/
theorem client_loop_no_send_after_timeout (kt : Nat) :
    (∀ steps : List (Nat × RecvOutcome), ∀ payload ∈ client_run kt steps,
      ∃ e q, (e, RecvOutcome.quote q) ∈ steps ∧ e ≤ kt ∧
        payload = render_stock_quote q) ∧
    (∀ pre post e r, kt < e →
      client_run kt (pre ++ (e, r) :: post) = client_run kt (pre ++ [(e, r)])) := by
  constructor
  · intro steps
    induction steps with
    | nil => intro payload h; simp [client_run] at h
    | cons x xs ih =>
      obtain ⟨e0, r0⟩ := x
      intro payload h
      by_cases he : kt < e0
      · simp [client_run, client_iteration, he] at h
      · cases r0 with
        | quote q =>
          simp only [client_run, client_iteration, if_neg he] at h
          rcases List.mem_append.mp h with h | h
          · refine ⟨e0, q, by simp, by omega, ?_⟩
            simpa using h
          · obtain ⟨e, q2, hmem, hle, hpl⟩ := ih payload h
            exact ⟨e, q2, by simp [hmem], hle, hpl⟩
        | timedOut =>
          simp only [client_run, client_iteration, if_neg he,
            List.nil_append] at h
          obtain ⟨e, q2, hmem, hle, hpl⟩ := ih payload h
          exact ⟨e, q2, by simp [hmem], hle, hpl⟩
        | disconnected =>
          simp [client_run, client_iteration, he] at h
  · intro pre post e r he
    induction pre with
    | nil =>
      simp only [List.nil_append, client_run, client_iteration, if_pos he]
    | cons x xs ih =>
      obtain ⟨e1, r1⟩ := x
      simp only [List.cons_append, client_run, List.append_eq]
      cases hi : client_iteration kt e1 r1 with
      | none => rfl
      | some s => rw [ih]

/-- Witness for C10: with a 5-unit timeout, an iteration observing elapsed 6
cuts the run short — the quote queued behind it is never sent. -/
theorem client_loop_no_send_after_timeout_witness :
    client_run 5
      ([(0, RecvOutcome.quote ⟨"AAPL".data, 1, 1, 1⟩)] ++
        (6, RecvOutcome.timedOut) ::
        [(3, RecvOutcome.quote ⟨"MSFT".data, 2, 2, 2⟩)]) =
    client_run 5
      ([(0, RecvOutcome.quote ⟨"AAPL".data, 1, 1, 1⟩)] ++
        [(6, RecvOutcome.timedOut)]) :=
  (client_loop_no_send_after_timeout 5).2
    [(0, RecvOutcome.quote ⟨"AAPL".data, 1, 1, 1⟩)]
    [(3, RecvOutcome.quote ⟨"MSFT".data, 2, 2, 2⟩)]
    6 RecvOutcome.timedOut (by omega)

theorem purge_foldl (ids : List Nat)
    (st : List (Nat × ClientEntry) × List EvictAction) :
    ids.foldl
      (fun acc i => (removeId i acc.1, acc.2 ++ [.closeOutbound i, .joinWorker i]))
      st =
    (ids.foldl (fun acc i => removeId i acc) st.1,
     st.2 ++ ids.flatMap fun i => [.closeOutbound i, .joinWorker i]) := by
  induction ids generalizing st with
  | nil => simp
  | cons x xs ih => simp [ih]

theorem foldl_removeId (ids : List Nat) (l : List (Nat × ClientEntry)) :
    ids.foldl (fun acc i => removeId i acc) l =
    l.filter fun c => !ids.contains c.1 := by
  induction ids generalizing l with
  | nil => simp
  | cons x xs ih =>
    rw [List.foldl_cons, ih]
    unfold removeId
    rw [List.filter_filter]
    apply List.filter_congr
    intro c hc
    simp [List.contains_cons]
    exact Bool.and_comm _ _

/-- Claim C4: the eviction sweep removes from the directory exactly the
subscribers whose elapsed time since the last PING strictly exceeds their
timeout, leaves every other entry unchanged and in place, and for each
evicted subscriber its outbound channel is closed strictly before its worker
is joined. -/
theorem purge_expired_clients_spec (now : Nat)
    (clients : List (Nat × ClientEntry))
    (hnodup : (clients.map Prod.fst).Nodup) :
    (purge_expired_clients now clients).1 =
      clients.filter (fun c => !decide (c.2.timeout < now - c.2.lastPing)) ∧
    (purge_expired_clients now clients).2 =
      ((expiredIds now clients).flatMap
        fun i => [.closeOutbound i, .joinWorker i]) ∧
    (∀ i ∈ expiredIds now clients, ∃ n m : Nat, n < m ∧
      (purge_expired_clients now clients).2[n]? =
        some (EvictAction.closeOutbound i) ∧
      (purge_expired_clients now clients).2[m]? =
        some (EvictAction.joinWorker i)) := by
  have hfold := purge_foldl (expiredIds now clients) (clients, [])
  have h1 : (purge_expired_clients now clients).1 =
      clients.filter (fun c => !decide (c.2.timeout < now - c.2.lastPing)) := by
    show (purge_expired_clients now clients).1 = _
    unfold purge_expired_clients
    rw [hfold]
    show (expiredIds now clients).foldl (fun acc i => removeId i acc) clients = _
    rw [foldl_removeId]
    apply List.filter_congr
    intro c hc
    have hmem : (expiredIds now clients).contains c.1 =
        decide (c.2.timeout < now - c.2.lastPing) := by
      cases hcond : decide (c.2.timeout < now - c.2.lastPing) with
      | true =>
        have : c.1 ∈ expiredIds now clients := by
          unfold expiredIds
          exact List.mem_map_of_mem _
            (List.mem_filter.mpr ⟨hc, hcond⟩)
        simpa [List.elem_iff]
      | false =>
        rw [Bool.eq_false_iff]
        intro habs
        rw [List.elem_iff] at habs
        unfold expiredIds at habs
        obtain ⟨d, hd, hdc⟩ := List.mem_map.mp habs
        have hdmem := (List.mem_filter.mp hd).1
        have hdcond := (List.mem_filter.mp hd).2
        have : d = c := List.inj_on_of_nodup_map hnodup hdmem hc hdc
        rw [this] at hdcond
        rw [hdcond] at hcond
        exact Bool.true_eq_false.mp hcond
    rw [hmem]
  have h2 : (purge_expired_clients now clients).2 =
      ((expiredIds now clients).flatMap
        fun i => [.closeOutbound i, .joinWorker i]) := by
    unfold purge_expired_clients
    rw [hfold]
    rfl
  refine ⟨h1, h2, ?_⟩
  intro i hi
  obtain ⟨s, t2, hids⟩ := List.append_of_mem hi
  refine ⟨(s.flatMap fun j => [EvictAction.closeOutbound j, EvictAction.joinWorker j]).length,
    (s.flatMap fun j => [EvictAction.closeOutbound j, EvictAction.joinWorker j]).length + 1,
    by omega, ?_, ?_⟩
  · rw [h2, hids, List.append_bind, List.cons_bind,
      List.getElem?_append_right (Nat.le_refl _)]
    simp
  · rw [h2, hids, List.append_bind, List.cons_bind,
      List.getElem?_append_right (by omega)]
    simp

/-- Witness for C4: a two-client directory at time 10 where client 0's PING
is 10 units stale against a 5-unit timeout and client 1's is 3 units fresh. -/
theorem purge_expired_clients_spec_witness :
    (purge_expired_clients 10
        [(0, ⟨[], 0, 5, SocketAddr.v4 127 0 0 1 9000⟩),
         (1, ⟨[], 7, 5, SocketAddr.v4 127 0 0 1 9001⟩)]).1 =
      [(1, ⟨[], 7, 5, SocketAddr.v4 127 0 0 1 9001⟩)] ∧
    (∀ i ∈ expiredIds 10
        [(0, ⟨[], 0, 5, SocketAddr.v4 127 0 0 1 9000⟩),
         (1, ⟨[], 7, 5, SocketAddr.v4 127 0 0 1 9001⟩)], ∃ n m : Nat, n < m ∧
      (purge_expired_clients 10
        [(0, ⟨[], 0, 5, SocketAddr.v4 127 0 0 1 9000⟩),
         (1, ⟨[], 7, 5, SocketAddr.v4 127 0 0 1 9001⟩)]).2[n]? =
        some (EvictAction.closeOutbound i) ∧
      (purge_expired_clients 10
        [(0, ⟨[], 0, 5, SocketAddr.v4 127 0 0 1 9000⟩),
         (1, ⟨[], 7, 5, SocketAddr.v4 127 0 0 1 9001⟩)]).2[m]? =
        some (EvictAction.joinWorker i)) := by
  have h := purge_expired_clients_spec 10
    [(0, ⟨[], 0, 5, SocketAddr.v4 127 0 0 1 9000⟩),
     (1, ⟨[], 7, 5, SocketAddr.v4 127 0 0 1 9001⟩)] (by decide)
  exact ⟨by rw [h.1]; rfl, h.2.2⟩

theorem updateFirst_of_no_match (test : ClientEntry → Bool)
    (upd : ClientEntry → ClientEntry) (l : List (Nat × ClientEntry))
    (h : ∀ c ∈ l, test c.2 = false) :
    updateFirst test upd l = l := by
  induction l with
  | nil => rfl
  | cons x xs ih =>
    rw [updateFirst, if_neg]
    · rw [ih fun c hc => h c (List.mem_cons_of_mem _ hc)]
    · rw [h x (List.mem_cons_self _ _)]
      exact Bool.false_ne_true

theorem updateFirst_first_match (test : ClientEntry → Bool)
    (upd : ClientEntry → ClientEntry) (pre post : List (Nat × ClientEntry))
    (i : Nat) (c : ClientEntry)
    (hpre : ∀ d ∈ pre, test d.2 = false) (hc : test c = true) :
    updateFirst test upd (pre ++ (i, c) :: post) = pre ++ (i, upd c) :: post := by
  induction pre with
  | nil => simp [updateFirst, hc]
  | cons x xs ih =>
    rw [List.cons_append, updateFirst, if_neg, List.cons_append,
      ih fun d hd => hpre d (List.mem_cons_of_mem _ hd)]
    rw [hpre x (List.mem_cons_self _ _)]
    exact Bool.false_ne_true

/-- Counterexample for C5: the dispatcher's PING scan stops at the first
directory entry whose address matches the sender, so when two subscribers
share a `udp_addr`, a PING from that address leaves the second subscriber's
`last_ping` untouched — the claim's "exactly when a PING arrives from that
subscriber's udp_addr" fails for the shadowed subscriber.  Concretely: two
clients both at 127.0.0.1:9000 with `last_ping = 5`; a PING at instant 10
leaves client 1 at 5, not 10. -/
theorem dispatcher_handle_ping_shadowed :
    ¬ (∀ (clients : List (Nat × ClientEntry)) (now : Nat) (payload : List Nat)
        (fromAddr : SocketAddr) (i : Nat) (c : ClientEntry),
        (i, c) ∈ clients → c.udpAddr = fromAddr → payload = pingBytes →
        ∃ c2, (i, c2) ∈ dispatcher_handle_ping now payload fromAddr clients ∧
          c2.lastPing = now) := by
  intro h
  obtain ⟨c2, hmem, hlp⟩ := h
    [(0, ⟨[], 5, 5, SocketAddr.v4 127 0 0 1 9000⟩),
     (1, ⟨[], 5, 5, SocketAddr.v4 127 0 0 1 9000⟩)]
    10 pingBytes (SocketAddr.v4 127 0 0 1 9000) 1
    ⟨[], 5, 5, SocketAddr.v4 127 0 0 1 9000⟩ (by decide) rfl rfl
  rw [show dispatcher_handle_ping 10 pingBytes (SocketAddr.v4 127 0 0 1 9000)
      [(0, ⟨[], 5, 5, SocketAddr.v4 127 0 0 1 9000⟩),
       (1, ⟨[], 5, 5, SocketAddr.v4 127 0 0 1 9000⟩)] =
      [(0, ⟨[], 10, 5, SocketAddr.v4 127 0 0 1 9000⟩),
       (1, ⟨[], 5, 5, SocketAddr.v4 127 0 0 1 9000⟩)] from rfl] at hmem
  simp only [List.mem_cons, List.not_mem_nil, or_false, Prod.mk.injEq] at hmem
  rcases hmem with ⟨h0, -⟩ | ⟨-, hc2⟩
  · exact absurd h0 one_ne_zero
  · rw [hc2] at hlp
    exact absurd hlp (by decide)

/-- Claim C5 (amended): `last_ping` is initialized to the current instant at
registration; afterwards, when a datagram whose received bytes are exactly
`PING` arrives from a known address, only the first subscriber in directory
order with that address has `last_ping` set to now; any other payload, and a
PING from an address belonging to no subscriber, leaves every entry
unchanged. -/
theorem dispatcher_ping_update :
    (∀ (now kt : Nat) (clients : List (Nat × ClientEntry)) (nextId : Nat)
        (request : StreamRequest),
      (register_client now kt clients nextId request).1 =
        clients ++ [(nextId,
          { tickers := request.tickers, lastPing := now,
            timeout := kt, udpAddr := request.udp_addr })] ∧
      (register_client now kt clients nextId request).2 = nextId + 1) ∧
    (∀ (now : Nat) (payload : List Nat) (fromAddr : SocketAddr)
        (clients : List (Nat × ClientEntry)),
      payload.take 16 ≠ pingBytes →
      dispatcher_handle_ping now payload fromAddr clients = clients) ∧
    (∀ (now : Nat) (payload : List Nat) (fromAddr : SocketAddr)
        (clients : List (Nat × ClientEntry)),
      (∀ c ∈ clients, c.2.udpAddr ≠ fromAddr) →
      dispatcher_handle_ping now payload fromAddr clients = clients) ∧
    (∀ (now : Nat) (fromAddr : SocketAddr)
        (pre post : List (Nat × ClientEntry)) (i : Nat) (c : ClientEntry),
      (∀ d ∈ pre, d.2.udpAddr ≠ fromAddr) → c.udpAddr = fromAddr →
      dispatcher_handle_ping now pingBytes fromAddr (pre ++ (i, c) :: post) =
        pre ++ (i, { c with lastPing := now }) :: post) := by
  refine ⟨fun now kt clients nextId request => ⟨rfl, rfl⟩, ?_, ?_, ?_⟩
  · intro now payload fromAddr clients hp
    rw [dispatcher_handle_ping, if_neg hp]
  · intro now payload fromAddr clients haddr
    rw [dispatcher_handle_ping]
    split
    · apply updateFirst_of_no_match
      intro c hc
      simp [haddr c hc]
    · rfl
  · intro now fromAddr pre post i c hpre hc
    rw [dispatcher_handle_ping, if_pos (by decide)]
    apply updateFirst_first_match
    · intro d hd
      simp [hpre d hd]
    · simp [hc]

/-- Witness for C5 (amended): a fresh registration stamps `last_ping` with
the current instant; a PING from an unknown address changes nothing; a PING
from a known address updates exactly the first matching entry. -/
theorem dispatcher_ping_update_witness :
    (register_client 7 5 [] 0
        ⟨SocketAddr.v4 127 0 0 1 9000, ["AAPL".data]⟩).1 =
      [(0, { tickers := ["AAPL".data], lastPing := 7,
             timeout := 5, udpAddr := SocketAddr.v4 127 0 0 1 9000 })] ∧
    dispatcher_handle_ping 9 [80, 79, 78, 71] (SocketAddr.v4 127 0 0 1 9000)
      [(0, ⟨[], 5, 5, SocketAddr.v4 127 0 0 1 9000⟩)] =
      [(0, ⟨[], 5, 5, SocketAddr.v4 127 0 0 1 9000⟩)] ∧
    dispatcher_handle_ping 9 pingBytes (SocketAddr.v4 127 0 0 1 9001)
      [(0, ⟨[], 5, 5, SocketAddr.v4 127 0 0 1 9000⟩)] =
      [(0, ⟨[], 5, 5, SocketAddr.v4 127 0 0 1 9000⟩)] ∧
    dispatcher_handle_ping 9 pingBytes (SocketAddr.v4 127 0 0 1 9000)
      ([(0, ⟨[], 5, 5, SocketAddr.v4 127 0 0 1 9001⟩)] ++
        (1, ⟨[], 5, 5, SocketAddr.v4 127 0 0 1 9000⟩) ::
        [(2, ⟨[], 5, 5, SocketAddr.v4 127 0 0 1 9000⟩)]) =
      [(0, ⟨[], 5, 5, SocketAddr.v4 127 0 0 1 9001⟩)] ++
        (1, ⟨[], 9, 5, SocketAddr.v4 127 0 0 1 9000⟩) ::
        [(2, ⟨[], 5, 5, SocketAddr.v4 127 0 0 1 9000⟩)] := by
  obtain ⟨hreg, hnp, hna, hfirst⟩ := dispatcher_ping_update
  refine ⟨(hreg 7 5 [] 0 ⟨SocketAddr.v4 127 0 0 1 9000, ["AAPL".data]⟩).1, ?_, ?_, ?_⟩
  · exact hnp 9 [80, 79, 78, 71] (SocketAddr.v4 127 0 0 1 9000)
      [(0, ⟨[], 5, 5, SocketAddr.v4 127 0 0 1 9000⟩)] (by decide)
  · exact hna 9 pingBytes (SocketAddr.v4 127 0 0 1 9001)
      [(0, ⟨[], 5, 5, SocketAddr.v4 127 0 0 1 9000⟩)] (by decide)
  · exact hfirst 9 (SocketAddr.v4 127 0 0 1 9000)
      [(0, ⟨[], 5, 5, SocketAddr.v4 127 0 0 1 9001⟩)]
      [(2, ⟨[], 5, 5, SocketAddr.v4 127 0 0 1 9000⟩)] 1
      ⟨[], 5, 5, SocketAddr.v4 127 0 0 1 9000⟩ (by decide) rfl
